import Mathlib

/-!
# opendht-test: persistence / bootstrap glue of `src/main.cpp`

A shallow embedding of the command-line driver.  The program is glue around
three external libraries (the DHT runtime, the msgpack codec, the identity
crypto); each of them is a parameter of the model, and every call the driver
makes into them is recorded, in order, in the `trace` of the `World`.

Modelling conventions
* the file system is a map from paths to the bytes of a regular file
  (`none`: no file at that path); an input stream on such a file yields its
  bytes;
* an output stream may fail: `World.ofstream` says, for a path and the data
  the program writes, whether the stream opens and which octets reach the
  file; the program never tests its streams, so a failure is silent;
* a C++ exception is an `Exn`; a function that may throw returns
  `Except Exn _` together with the world reached when it threw;
* `cxxopts` parsing is outside the model: `main` starts from the parsed
  `Options` (line 113 has returned normally);
* control calls into the DHT runtime return normally and are logged.
-/

namespace OpenDhtTest

/-! ## Data model -/

/-- Content of a binary file or buffer: a sequence of octets. -/
abbrev Bytes := List Nat

/-- Modelled from the spec: the Node Descriptor (`dht::NodeExport`, declared
in the external library): "an exportable record describing a known peer
(address/port/identifier)". -/
structure NodeExport where
  id : Nat
  addr : Nat
  port : Nat
deriving DecidableEq

/-- Exceptions the model distinguishes, all derived from `std::exception`:
`msgpack::parse_error` (thrown by `unpacker::next`), `msgpack::type_error`
(thrown by `object::as`), and the errors of the identity library. -/
inductive Exn where
  | parse_error
  | type_error
  | crypto (what : String)
deriving DecidableEq

/-- Outcome of one `msgpack::unpacker::next` on the unread part of the buffer:
`incomplete` is `next` returning `false` (no complete object left),
`object o rest` is `next` returning `true` with `o` in the handle and `rest`
still unread, `malformed` is `next` throwing `msgpack::parse_error`. -/
inductive Parse (Obj : Type) where
  | incomplete
  | object (o : Obj) (rest : Bytes)
  | malformed

/-- The msgpack codec the program links against (not part of the repository).
`pack` is `msgpack::pack` on a `std::vector<dht::NodeExport>`, `next` is
`unpacker::next`, `as_nodes` is `object::as<std::vector<dht::NodeExport>>`
(`none`: it throws `type_error`).  The two laws are the ones any streaming
unpacker has: nothing is produced from an empty buffer, and an object that is
produced has consumed at least one octet. -/
structure Msgpack where
  Obj : Type
  pack : List NodeExport → Bytes
  next : Bytes → Parse Obj
  as_nodes : Obj → Option (List NodeExport)
  next_nil : next [] = Parse.incomplete
  next_consumes : ∀ buf o rest, next buf = Parse.object o rest → rest.length < buf.length

/-- Handle on a decoded `dht::crypto::PrivateKey`. -/
structure PrivateKey where
  handle : Nat
deriving DecidableEq

/-- Handle on a decoded `dht::crypto::Certificate`. -/
structure Certificate where
  handle : Nat
deriving DecidableEq

/-- The pair `dht::crypto::Identity`. -/
abbrev Identity := PrivateKey × Certificate

/-- Lines written by `fmt::print`; the formatting itself is not modelled. -/
inductive Msg where
  | usage
  | fingerprint (id : String)
  | running (port : Nat)
  | bootstrapping (host port : String)
  | imported (count : Nat)
  | exported (count : Nat)
  | shutting_down
  | load_failed (what : Exn)
  | aborting
deriving DecidableEq

/-- Calls the program makes into its collaborators, as they appear in the trace. -/
inductive Event where
  | private_key (buffer : Bytes) (password : String)
  | certificate (buffer : Bytes)
  | generateIdentity
  | saveIdentity (path password : String)
  | run (port : Nat)
  | bootstrap_nodes (nodes : List NodeExport)
  | bootstrap_host (host port : String)
  | shutdown
  | join
  | getchar (c : Int)
  | print (m : Msg)
  | eprint (m : Msg)
deriving DecidableEq

/-- File system: the bytes of the regular file at each path, if there is one. -/
abbrev Files := String → Option Bytes

/-- Everything outside the program.  `ofstream path data` is what
`std::ofstream f(path, std::ios::binary)` followed by the writing of `data`
leaves in the file: `none` when the stream does not open (missing directory,
read-only file, ...), in which case nothing is created or truncated and the
writes are dropped; `some written` when it opens, `written` being the octets
that reached the truncated file (`data` itself unless a write failed).
`nodes` is what `dht.exportNodes()`
answers, `running` the answers of the successive `dht.isRunning()` calls,
`bound_port` the answer of `dht.getBoundPort()`, `stdin` the octets not yet
read from standard input, `trace` the calls made so far, oldest first. -/
structure World where
  fs : Files
  ofstream : String → Bytes → Option Bytes
  nodes : List NodeExport
  running : Nat → Bool
  bound_port : Nat
  stdin : List Nat
  trace : List Event

/-- The identity library (not part of the repository): the two decoding
constructors, `generateIdentity`, `saveIdentity` (which writes files and may
throw after having written some of them) and the printable id of the public
key of a private key. -/
structure Crypto where
  private_key : Bytes → String → Except Exn PrivateKey
  certificate : Bytes → Except Exn Certificate
  generateIdentity : Except Exn Identity
  saveIdentity : Identity → String → String → Files → Option Exn × Files
  fingerprint : PrivateKey → String

/-- Parsed command line (`result` of line 113). -/
structure Options where
  help : Bool
  port : Nat
  bootstrap_host : String
  bootstrap_port : String
  nodes : String
  identity : String
  password : String

/-- How the process ends: `exit(code)`, `return code` from `main`, or an
exception nobody catches (`std::terminate`). -/
inductive Exit where
  | exit (code : Int)
  | returned (code : Int)
  | terminate (e : Exn)
deriving DecidableEq

/-! ## Primitive effects -/

/-- Append one call to the trace. -/
def log (w : World) (e : Event) : World :=
  { w with trace := w.trace ++ [e] }

/-- File system in which the file at `path` holds `data` and every other
file is as in `fs`. -/
def store (fs : Files) (path : String) (data : Bytes) : Files :=
  fun p => if p = path then some data else fs p

/-- Effect of lines 24-25, `std::ofstream nodes_file(path, std::ios::binary)`
followed by the writing of `data`; the stream is never tested, so when it
does not open nothing happens. -/
def write_file (w : World) (path : String) (data : Bytes) : World :=
  match w.ofstream path data with
  | none => w
  | some written => { w with fs := store w.fs path written }

/-- Answer of `dht.isRunning()`: the head of the stream of answers. -/
def isRunning (w : World) : Bool × World :=
  (w.running 0, { w with running := fun n => w.running (n + 1) })

/-- Result of `getchar()`: the next octet as a non-negative `int`, or `EOF`
(`-1`) when the input is exhausted. -/
def getchar (w : World) : Int × World :=
  match w.stdin with
  | [] => (-1, log w (Event.getchar (-1)))
  | c :: cs => (((c % 256 : Nat) : Int), log { w with stdin := cs } (Event.getchar ((c % 256 : Nat) : Int)))

/-- Call `dht.bootstrap(nodes)` (line 51). -/
def bootstrap (w : World) (nodes : List NodeExport) : World :=
  log w (Event.bootstrap_nodes nodes)

/-! ## `export_nodes` (lines 17-28) -/

/-- Lines 17-28. -/
def export_nodes (mp : Msgpack) (w : World) (file_name : String) : Nat × World :=
  let nodes := w.nodes
  if nodes.length = 0 then
    (0, w)
  else
    (nodes.length, write_file w file_name (mp.pack nodes))

/-! ## `import_nodes` (lines 30-55) -/

/-- The `while (pac.next(oh))` loop of lines 47-52 on the unread buffer `buf`
with the running `node_count`.  `none` only when the iteration budget is used
up. -/
def import_loop (mp : Msgpack) : Nat → Bytes → Nat → World → Option (Except Exn Nat × World)
  | 0, _, _, _ => none
  | fuel + 1, buf, node_count, w =>
    match mp.next buf with
    | Parse.incomplete => some (Except.ok node_count, w)
    | Parse.malformed => some (Except.error Exn.parse_error, w)
    | Parse.object o rest =>
      match mp.as_nodes o with
      | none => some (Except.error Exn.type_error, w)
      | some imported_nodes =>
        import_loop mp fuel rest (node_count + imported_nodes.length) (bootstrap w imported_nodes)

/-- Lines 30-55.  The whole file is handed to the unpacker; the loop is given
one iteration more than the file has octets, which `next_consumes` makes
enough (see `import_loop_enough`). -/
def import_nodes (mp : Msgpack) (w : World) (file_name : String) : Option (Except Exn Nat × World) :=
  match w.fs file_name with
  | none => some (Except.ok 0, w)
  | some buf => import_loop mp (buf.length + 1) buf 0 w

/-! ## `read_file` and `load_identity` (lines 57-95) -/

/-- Lines 57-71: the bytes of the file; a stream that failed to open yields
`end - tellg() = 0` octets. -/
def read_file (fs : Files) (file_path : String) : Bytes :=
  match fs file_path with
  | none => []
  | some data => data

/-- Lines 73-95.  `Except.ok none` is the `nullptr` result. -/
def load_identity (cr : Crypto) (w : World) (identity_path : String) (password : String) :
    Except Exn (Option Identity) × World :=
  let private_key_path := identity_path ++ ".pem"
  let certificate_path := identity_path ++ ".crt"
  if (w.fs private_key_path).isNone then (Except.ok none, w)
  else if (w.fs certificate_path).isNone then (Except.ok none, w)
  else
    let private_key_buffer := read_file w.fs private_key_path
    let certificate_buffer := read_file w.fs certificate_path
    if private_key_buffer.isEmpty then (Except.ok none, w)
    else if certificate_buffer.isEmpty then (Except.ok none, w)
    else
      let w1 := log w (Event.private_key private_key_buffer password)
      match cr.private_key private_key_buffer password with
      | Except.error e => (Except.error e, w1)
      | Except.ok private_key =>
        let w2 := log w1 (Event.certificate certificate_buffer)
        match cr.certificate certificate_buffer with
        | Except.error e => (Except.error e, w2)
        | Except.ok certificate => (Except.ok (some (private_key, certificate)), w2)

/-! ## `main` (lines 97-174) -/

/-- Body of the `try` block, lines 124-130. -/
def resolve_identity (cr : Crypto) (w : World) (identity_file password : String) :
    Except Exn Identity × World :=
  match load_identity cr w identity_file password with
  | (Except.error e, w1) => (Except.error e, w1)
  | (Except.ok (some identity), w1) => (Except.ok identity, w1)
  | (Except.ok none, w1) =>
    let w2 := log w1 Event.generateIdentity
    match cr.generateIdentity with
    | Except.error e => (Except.error e, w2)
    | Except.ok identity =>
      let w3 := log w2 (Event.saveIdentity identity_file password)
      match cr.saveIdentity identity identity_file password w3.fs with
      | (some e, fs) => (Except.error e, { w3 with fs := fs })
      | (none, fs) => (Except.ok identity, { w3 with fs := fs })

/-- Lines 148-158: cache import, then host/port bootstrap or the report of
the import count.  An exception of `import_nodes` is not caught. -/
def bootstrapping (mp : Msgpack) (opts : Options) (w : World) : Option (Except Exn Nat × World) :=
  match import_nodes mp w opts.nodes with
  | none => none
  | some (Except.error e, w1) => some (Except.error e, w1)
  | some (Except.ok import_count, w1) =>
    if import_count = 0 then
      let w2 := log w1 (Event.print (Msg.bootstrapping opts.bootstrap_host opts.bootstrap_port))
      some (Except.ok import_count, log w2 (Event.bootstrap_host opts.bootstrap_host opts.bootstrap_port))
    else
      some (Except.ok import_count, log w1 (Event.print (Msg.imported import_count)))

/-- Lines 160-162: `while (dht.isRunning()) if (getchar() == 'q') break;`.
`none` only when the iteration budget is used up (`'q'` is 113). -/
def idle : Nat → World → Option World
  | 0, _ => none
  | fuel + 1, w =>
    match isRunning w with
    | (false, w1) => some w1
    | (true, w1) =>
      match getchar w1 with
      | (c, w2) => if c = 113 then some w2 else idle fuel w2

/-- Lines 164-173. -/
def shutting_down (mp : Msgpack) (opts : Options) (w : World) : Exit × World :=
  match export_nodes mp w opts.nodes with
  | (export_count, w1) =>
    let w2 := if export_count > 0 then log w1 (Event.print (Msg.exported export_count)) else w1
    let w3 := log w2 (Event.print Msg.shutting_down)
    let w4 := log w3 Event.shutdown
    let w5 := log w4 Event.join
    (Exit.returned 0, w5)

/-- Lines 137-146: fingerprint line, `dht.run`, bound-port line. -/
def start_runtime (cr : Crypto) (opts : Options) (identity : Identity) (w : World) : World :=
  let w1 := log w (Event.print (Msg.fingerprint (cr.fingerprint identity.1)))
  let w2 := log w1 (Event.run opts.port)
  log w2 (Event.print (Msg.running w2.bound_port))

/-- Lines 148-173, from the cache import to `return 0`. -/
def run_node (mp : Msgpack) (fuel : Nat) (opts : Options) (w : World) : Option (Exit × World) :=
  match bootstrapping mp opts w with
  | none => none
  | some (Except.error e, w1) => some (Exit.terminate e, w1)
  | some (Except.ok _, w1) =>
    match idle fuel w1 with
    | none => none
    | some w2 => some (shutting_down mp opts w2)

/-- Lines 113-173 of `main`, `fuel` bounding the iterations of the idle loop. -/
def main (cr : Crypto) (mp : Msgpack) (fuel : Nat) (opts : Options) (w : World) : Option (Exit × World) :=
  if opts.help then
    some (Exit.exit 0, log w (Event.print Msg.usage))
  else
    match resolve_identity cr w opts.identity opts.password with
    | (Except.error e, w1) =>
      some (Exit.exit 0, log (log w1 (Event.eprint (Msg.load_failed e))) (Event.eprint Msg.aborting))
    | (Except.ok identity, w1) =>
      run_node mp fuel opts (start_runtime cr opts identity w1)

/-! ## Specification-side notions -/

/-- The unread buffer `buf` decodes to the frames `frames`: the unpacker
yields one object per frame, each converting to a node list, and then reports
that no complete object is left. -/
inductive Decodes (mp : Msgpack) : Bytes → List (List NodeExport) → Prop where
  | done {buf : Bytes} : mp.next buf = Parse.incomplete → Decodes mp buf []
  | frame {buf rest : Bytes} {o : mp.Obj} {nodes : List NodeExport} {frames : List (List NodeExport)} :
      mp.next buf = Parse.object o rest → mp.as_nodes o = some nodes →
      Decodes mp rest frames → Decodes mp buf (nodes :: frames)

/-- The unread buffer `buf` holds, after the valid frames `good`, a complete
frame that does not decode to a node list: either its bytes are malformed
(`parse_error`) or the object is not a sequence of node descriptors
(`type_error`).  Octets that stop in the middle of an object are not such a
frame: on them `next` answers `incomplete`. -/
inductive BadFrame (mp : Msgpack) : Bytes → List (List NodeExport) → Exn → Prop where
  | malformed {buf : Bytes} : mp.next buf = Parse.malformed → BadFrame mp buf [] Exn.parse_error
  | mistyped {buf rest : Bytes} {o : mp.Obj} :
      mp.next buf = Parse.object o rest → mp.as_nodes o = none → BadFrame mp buf [] Exn.type_error
  | later {buf rest : Bytes} {o : mp.Obj} {nodes : List NodeExport} {good : List (List NodeExport)} {e : Exn} :
      mp.next buf = Parse.object o rest → mp.as_nodes o = some nodes →
      BadFrame mp rest good e → BadFrame mp buf (nodes :: good) e

/-- World after the calls `added` have been made and nothing else changed. -/
def after (w : World) (added : List Event) : World :=
  { w with trace := w.trace ++ added }

/-- Calls into the DHT runtime. -/
def Event.is_runtime_call : Event → Bool
  | Event.run _ => true
  | Event.bootstrap_nodes _ => true
  | Event.bootstrap_host _ _ => true
  | Event.shutdown => true
  | Event.join => true
  | _ => false

/-- A file that is absent or has no content. -/
def missing_or_empty (fs : Files) (path : String) : Prop :=
  fs path = none ∨ fs path = some []

/-- Value the `k`-th `getchar()` returns on the input `stdin`. -/
def input_at (stdin : List Nat) (k : Nat) : Int :=
  match stdin.get? k with
  | some c => ((c % 256 : Nat) : Int)
  | none => -1

/-- World in which the idle loop stops after `checks` calls of `isRunning`
and `reads` calls of `getchar`. -/
def idle_exit (w : World) (checks reads : Nat) : World :=
  { w with
    running := fun n => w.running (n + checks)
    stdin := w.stdin.drop reads
    trace := w.trace ++ (List.range reads).map (fun j => Event.getchar (input_at w.stdin j)) }

/-- What `load_identity` does once both files are known to hold the
non-empty contents `key_bytes` and `crt_bytes`: decode the key with the
password, then the certificate; the first decoder that throws ends the call
with its exception. -/
def decode_identity (cr : Crypto) (w : World) (key_bytes crt_bytes : Bytes) (password : String) :
    Except Exn (Option Identity) × World :=
  match cr.private_key key_bytes password with
  | Except.error e => (Except.error e, after w [Event.private_key key_bytes password])
  | Except.ok key =>
    match cr.certificate crt_bytes with
    | Except.error e =>
      (Except.error e, after w [Event.private_key key_bytes password, Event.certificate crt_bytes])
    | Except.ok crt =>
      (Except.ok (some (key, crt)),
        after w [Event.private_key key_bytes password, Event.certificate crt_bytes])

/-! ## Sample collaborators, used to run the model on concrete inputs -/

/-- Objects of the sample codec: a small integer or an array of integers. -/
inductive SampleObj where
  | int (n : Nat)
  | array (xs : List Nat)
deriving DecidableEq

/-- Node list carried by an array of the sample codec, three integers a node. -/
def sample_nodes : List Nat → List NodeExport
  | a :: b :: c :: rest => NodeExport.mk a b c :: sample_nodes rest
  | _ => []

/-- Sample unpacker: an octet below 128 is an integer object; an octet
`144 + n` (`n < 16`) opens an array of `n` nodes, three small integers each;
anything else is malformed. -/
def sample_next : Bytes → Parse SampleObj
  | [] => Parse.incomplete
  | b :: rest =>
    if b < 128 then Parse.object (SampleObj.int b) rest
    else if 144 ≤ b ∧ b < 160 then
      if rest.length < 3 * (b - 144) then Parse.incomplete
      else if (rest.take (3 * (b - 144))).all (fun x => decide (x < 128)) then
        Parse.object (SampleObj.array (rest.take (3 * (b - 144)))) (rest.drop (3 * (b - 144)))
      else Parse.malformed
    else Parse.malformed

/-- Sample conversion of an object to a node list. -/
def sample_as_nodes : SampleObj → Option (List NodeExport)
  | SampleObj.int _ => none
  | SampleObj.array xs => some (sample_nodes xs)

/-- Sample packer. -/
def sample_pack (nodes : List NodeExport) : Bytes :=
  (144 + nodes.length) :: nodes.flatMap (fun n => [n.id, n.addr, n.port])

/-- The sample codec. -/
def sample_msgpack : Msgpack where
  Obj := SampleObj
  pack := sample_pack
  next := sample_next
  as_nodes := sample_as_nodes
  next_nil := rfl
  next_consumes := by
    intro buf o rest h
    cases buf with
    | nil => simp [sample_next] at h
    | cons b tl =>
      simp only [sample_next] at h
      split at h
      · cases h; simp
      · split at h
        · split at h
          · cases h
          · split at h
            · cases h
              simp only [List.length_drop, List.length_cons]
              omega
            · cases h
        · cases h

/-- Sample identity library: a key file must start with octet 1 and is
protected by the password "pw", a certificate must start with octet 2. -/
def sample_crypto : Crypto where
  private_key := fun buf password =>
    if buf.head? = some 1 ∧ password = "pw" then Except.ok (PrivateKey.mk buf.length)
    else Except.error (Exn.crypto "bad key")
  certificate := fun buf =>
    if buf.head? = some 2 then Except.ok (Certificate.mk buf.length)
    else Except.error (Exn.crypto "bad certificate")
  generateIdentity := Except.ok (PrivateKey.mk 3, Certificate.mk 3)
  saveIdentity := fun _ path _ fs =>
    (none, store (store fs (path ++ ".pem") [1, 0, 0]) (path ++ ".crt") [2, 0, 0])
  fingerprint := fun _ => "sample-id"

/-- Sample command line: the defaults of lines 9-15 and 106-111, password "pw". -/
def sample_options : Options where
  help := false
  port := 0
  bootstrap_host := "bootstrap.jami.net"
  bootstrap_port := "4222"
  nodes := "nodes.bin"
  identity := "key"
  password := "pw"

/-- Sample world: the files `files`, every output stream opening and writing
all its data, a runtime holding `nodes` that answers "running" `up` times,
and the input `stdin`. -/
def sample_world (files : List (String × Bytes)) (nodes : List NodeExport) (up : Nat)
    (stdin : List Nat) : World where
  fs := fun p => files.lookup p
  ofstream := fun _ data => some data
  nodes := nodes
  running := fun n => decide (n < up)
  bound_port := 4000
  stdin := stdin
  trace := []

/-- A cache of two frames, of one and of two nodes. -/
def sample_cache_world : World :=
  sample_world [("nodes.bin", [145, 1, 2, 3, 146, 4, 5, 6, 7, 8, 9])] [] 2 [113]

/-- A stored identity and a cache whose second object is an integer. -/
def sample_bad_cache_world : World :=
  sample_world [("key.pem", [1, 9]), ("key.crt", [2, 9]), ("nodes.bin", [145, 1, 2, 3, 7])] [] 2 [113]

/-- An absent identity and an absent cache. -/
def sample_cold_world : World :=
  sample_world [] [] 2 [120, 113, 120]

/-- A stored identity and a cache that holds the first octets of one frame. -/
def sample_cut_cache_world : World :=
  sample_world [("key.pem", [1, 9]), ("key.crt", [2, 9]), ("nodes.bin", [146, 4, 5])] [] 2 [113]

/-- The world of `sample_bad_cache_world` once the stored identity is loaded. -/
def sample_loaded_world : World :=
  after sample_bad_cache_world [Event.private_key [1, 9] "pw", Event.certificate [2, 9]]

/-- A stored key that does not decode, next to a valid certificate. -/
def sample_bad_key_world : World :=
  sample_world [("key.pem", [7, 9]), ("key.crt", [2, 9])] [] 2 [113]

/-- The sample command line with the help flag. -/
def sample_help_options : Options :=
  { sample_options with help := true }

/-- The world of `sample_bad_key_world` once the key decoder has thrown. -/
def sample_failed_world : World :=
  after sample_bad_key_world [Event.private_key [7, 9] "pw"]

/-- A cache of one frame followed by the first octets of a second one. -/
def sample_truncated_world : World :=
  sample_world [("nodes.bin", [145, 1, 2, 3, 146, 4, 5])] [] 2 [113]

/-! ## Lemmas -/

theorem after_nil (w : World) : after w [] = w := by
  cases w; simp [after]

theorem after_after (w : World) (xs ys : List Event) : after (after w xs) ys = after w (xs ++ ys) := by
  simp [after]

theorem log_eq_after (w : World) (e : Event) : log w e = after w [e] := rfl

/-- The import loop on a buffer that decodes to `frames`. -/
theorem import_loop_decodes (mp : Msgpack) (fuel : Nat) :
    ∀ (buf : Bytes) (frames : List (List NodeExport)) (count : Nat) (w : World),
      Decodes mp buf frames → buf.length < fuel →
      import_loop mp fuel buf count w
        = some (Except.ok (count + (frames.map List.length).sum),
                after w (frames.map Event.bootstrap_nodes)) := by
  induction fuel with
  | zero => intro buf frames count w _ h; omega
  | succ fuel ih =>
    intro buf frames count w hd hlen
    cases hd with
    | done hn => simp [import_loop, hn, after_nil]
    | frame hn ha hrest =>
      have hc := mp.next_consumes _ _ _ hn
      simp only [import_loop, hn, ha]
      rw [ih _ _ _ _ hrest (by omega)]
      simp [bootstrap, log_eq_after, after_after, Nat.add_assoc]

/-- The import loop on a buffer with a frame that does not decode. -/
theorem import_loop_bad (mp : Msgpack) (fuel : Nat) :
    ∀ (buf : Bytes) (good : List (List NodeExport)) (e : Exn) (count : Nat) (w : World),
      BadFrame mp buf good e → buf.length < fuel →
      import_loop mp fuel buf count w
        = some (Except.error e, after w (good.map Event.bootstrap_nodes)) := by
  induction fuel with
  | zero => intro buf good e count w _ h; omega
  | succ fuel ih =>
    intro buf good e count w hb hlen
    cases hb with
    | malformed hn => simp [import_loop, hn, after_nil]
    | mistyped hn ha => simp [import_loop, hn, ha, after_nil]
    | later hn ha hrest =>
      have hc := mp.next_consumes _ _ _ hn
      simp only [import_loop, hn, ha]
      rw [ih _ _ _ _ _ hrest (by omega)]
      simp [bootstrap, log_eq_after, after_after]

/-- An import loop that ends in an exception met a frame that does not decode. -/
theorem import_loop_error (mp : Msgpack) (fuel : Nat) :
    ∀ (buf : Bytes) (count : Nat) (w w' : World) (e : Exn),
      import_loop mp fuel buf count w = some (Except.error e, w') →
      ∃ good, BadFrame mp buf good e ∧ w' = after w (good.map Event.bootstrap_nodes) := by
  induction fuel with
  | zero => intro buf count w w' e h; simp [import_loop] at h
  | succ fuel ih =>
    intro buf count w w' e h
    simp only [import_loop] at h
    split at h
    · simp at h
    · simp only [Option.some.injEq, Prod.mk.injEq, Except.error.injEq] at h
      obtain ⟨he, hw⟩ := h
      subst he; subst hw
      exact ⟨[], BadFrame.malformed (by assumption), (after_nil _).symm⟩
    · split at h
      · simp only [Option.some.injEq, Prod.mk.injEq, Except.error.injEq] at h
        obtain ⟨he, hw⟩ := h
        subst he; subst hw
        exact ⟨[], BadFrame.mistyped (by assumption) (by assumption), (after_nil _).symm⟩
      · obtain ⟨good, hb, hw⟩ := ih _ _ _ _ _ h
        refine ⟨_ :: good, BadFrame.later (by assumption) (by assumption) hb, ?_⟩
        rw [hw]
        simp [bootstrap, log_eq_after, after_after]

/-- The iteration budget `import_nodes` gives its loop is never used up. -/
theorem import_loop_enough (mp : Msgpack) (fuel : Nat) :
    ∀ (buf : Bytes) (count : Nat) (w : World), buf.length < fuel →
      (import_loop mp fuel buf count w).isSome = true := by
  induction fuel with
  | zero => intro buf count w h; omega
  | succ fuel ih =>
    intro buf count w hlen
    simp only [import_loop]
    split
    · rfl
    · rfl
    · split
      · rfl
      · rename_i o rest hn _ _ _
        have hc := mp.next_consumes _ _ _ hn
        exact ih _ _ _ (by omega)

theorem load_identity_trace (cr : Crypto) (w : World) (identity_path password : String) :
    ∃ added, (load_identity cr w identity_path password).2 = after w added ∧
      ∀ ev ∈ added, ev.is_runtime_call = false := by
  unfold load_identity
  simp only
  split
  · exact ⟨[], (after_nil w).symm, by simp⟩
  · split
    · exact ⟨[], (after_nil w).symm, by simp⟩
    · split
      · exact ⟨[], (after_nil w).symm, by simp⟩
      · split
        · exact ⟨[], (after_nil w).symm, by simp⟩
        · split
          · exact ⟨[_], rfl, by simp [Event.is_runtime_call]⟩
          · split
            all_goals
              exact ⟨[Event.private_key (read_file w.fs (identity_path ++ ".pem")) password,
                  Event.certificate (read_file w.fs (identity_path ++ ".crt"))],
                by simp [log, after], by simp [Event.is_runtime_call]⟩

/-- Identity resolution makes no call into the DHT runtime. -/
theorem resolve_identity_trace (cr : Crypto) (w : World) (identity_file password : String) :
    ∃ added, (resolve_identity cr w identity_file password).2.trace = w.trace ++ added ∧
      ∀ ev ∈ added, ev.is_runtime_call = false := by
  obtain ⟨added, hw, hadded⟩ := load_identity_trace cr w identity_file password
  unfold resolve_identity
  split
  · rename_i e w1 heq
    rw [heq] at hw
    exact ⟨added, by rw [show w1 = after w added from hw]; rfl, hadded⟩
  · rename_i identity w1 heq
    rw [heq] at hw
    exact ⟨added, by rw [show w1 = after w added from hw]; rfl, hadded⟩
  · rename_i w1 heq
    rw [heq] at hw
    have hw1 : w1 = after w added := hw
    subst hw1
    simp only
    split
    · refine ⟨added ++ [Event.generateIdentity], by simp [log, after], ?_⟩
      intro ev hev
      rcases List.mem_append.1 hev with h | h
      · exact hadded ev h
      · simp at h; subst h; rfl
    · split
      all_goals
        refine ⟨added ++ [Event.generateIdentity, Event.saveIdentity identity_file password],
          by simp [log, after], ?_⟩
        intro ev hev
        rcases List.mem_append.1 hev with h | h
        · exact hadded ev h
        · simp at h
          rcases h with h | h <;> subst h <;> rfl

/-- The calls `start_runtime` makes. -/
theorem start_runtime_eq (cr : Crypto) (opts : Options) (identity : Identity) (w : World) :
    start_runtime cr opts identity w
      = after w [Event.print (Msg.fingerprint (cr.fingerprint identity.1)), Event.run opts.port,
                 Event.print (Msg.running w.bound_port)] := by
  simp [start_runtime, log, after]

/-- The import of a cache with a frame that does not decode. -/
theorem import_nodes_bad (mp : Msgpack) (w : World) (file_name : String) (buf : Bytes)
    (good : List (List NodeExport)) (e : Exn)
    (hfile : w.fs file_name = some buf) (hbad : BadFrame mp buf good e) :
    import_nodes mp w file_name = some (Except.error e, after w (good.map Event.bootstrap_nodes)) := by
  simp only [import_nodes, hfile]
  exact import_loop_bad mp _ _ _ _ _ _ hbad (by omega)

/-- The driver on a cache with a frame that does not decode. -/
theorem main_bad_cache (cr : Crypto) (mp : Msgpack) (fuel : Nat) (opts : Options) (w w1 : World)
    (identity : Identity) (buf : Bytes) (good : List (List NodeExport)) (e : Exn)
    (hhelp : opts.help = false)
    (hid : resolve_identity cr w opts.identity opts.password = (Except.ok identity, w1))
    (hfile : w1.fs opts.nodes = some buf) (hbad : BadFrame mp buf good e) :
    main cr mp fuel opts w
      = some (Exit.terminate e,
              after (start_runtime cr opts identity w1) (good.map Event.bootstrap_nodes)) := by
  have hfile2 : (start_runtime cr opts identity w1).fs opts.nodes = some buf := by
    rw [start_runtime_eq]; exact hfile
  simp [main, hhelp, hid, run_node, bootstrapping, import_nodes_bad mp _ _ _ _ _ hfile2 hbad]

theorem badFrame_exn (mp : Msgpack) (buf : Bytes) (good : List (List NodeExport)) (e : Exn)
    (h : BadFrame mp buf good e) : e = Exn.parse_error ∨ e = Exn.type_error := by
  induction h with
  | malformed _ => exact Or.inl rfl
  | mistyped _ _ => exact Or.inr rfl
  | later _ _ _ ih => exact ih

/-- An import that ends in an exception read a file with a frame that does
not decode. -/
theorem import_nodes_error (mp : Msgpack) (w w' : World) (file_name : String) (e : Exn)
    (h : import_nodes mp w file_name = some (Except.error e, w')) :
    ∃ buf good, w.fs file_name = some buf ∧ BadFrame mp buf good e ∧
      w' = after w (good.map Event.bootstrap_nodes) := by
  unfold import_nodes at h
  split at h
  · simp at h
  · rename_i buf hfile
    obtain ⟨good, hb, hw⟩ := import_loop_error mp _ _ _ _ _ _ h
    exact ⟨buf, good, hfile, hb, hw⟩

theorem bootstrapping_error (mp : Msgpack) (opts : Options) (w w' : World) (e : Exn)
    (h : bootstrapping mp opts w = some (Except.error e, w')) :
    import_nodes mp w opts.nodes = some (Except.error e, w') := by
  unfold bootstrapping at h
  split at h
  · simp at h
  · rename_i heq; rw [heq]; exact h
  · split at h <;> simp at h

theorem run_node_terminate (mp : Msgpack) (fuel : Nat) (opts : Options) (w w' : World) (e : Exn)
    (h : run_node mp fuel opts w = some (Exit.terminate e, w')) :
    bootstrapping mp opts w = some (Except.error e, w') := by
  unfold run_node at h
  split at h
  · simp at h
  · rename_i heq
    simp only [Option.some.injEq, Prod.mk.injEq, Exit.terminate.injEq] at h
    rw [heq, h.1, h.2]
  · split at h
    · simp at h
    · simp [shutting_down] at h

/-! ### The idle loop -/

theorem idle_exit_stop (w : World) : (isRunning w).2 = idle_exit w 1 0 := by
  cases w; simp [isRunning, idle_exit]

theorem getchar_isRunning (w : World) :
    getchar (isRunning w).2 = (input_at w.stdin 0, idle_exit w 1 1) := by
  cases w with
  | mk fs ofstream nodes running bound_port stdin trace =>
    cases stdin with
    | nil => simp [getchar, isRunning, idle_exit, input_at, log, List.range_succ]
    | cons c cs => simp [getchar, isRunning, idle_exit, input_at, log, List.range_succ]

theorem input_at_succ (w : World) (j : Nat) :
    input_at (idle_exit w 1 1).stdin j = input_at w.stdin (j + 1) := by
  cases h : w.stdin with
  | nil => simp [idle_exit, input_at, h]
  | cons c cs => simp [idle_exit, input_at, h]

theorem idle_exit_step (w : World) (checks reads : Nat) :
    idle_exit (idle_exit w 1 1) checks reads = idle_exit w (checks + 1) (reads + 1) := by
  have hin : ∀ j, input_at (List.drop 1 w.stdin) j = input_at w.stdin (j + 1) := by
    intro j
    have := input_at_succ w j
    simpa [idle_exit] using this
  simp only [idle_exit, World.mk.injEq, true_and]
  refine ⟨?_, ?_, ?_⟩
  · funext n; rw [Nat.add_assoc]
  · simp [Nat.add_comm]
  · rw [List.append_assoc]
    congr 1
    rw [List.range_succ_eq_map reads]
    simp only [List.drop_one] at hin
    simp [List.range_succ, hin, Function.comp_def]

/-- One iteration of the idle loop. -/
theorem idle_succ (fuel : Nat) (w : World) :
    idle (fuel + 1) w
      = if w.running 0 = true then
          (if input_at w.stdin 0 = 113 then some (idle_exit w 1 1)
           else idle fuel (idle_exit w 1 1))
        else some (idle_exit w 1 0) := by
  have hg := getchar_isRunning w
  have hs := idle_exit_stop w
  cases hr : w.running 0 with
  | false =>
    have hi : isRunning w = (false, idle_exit w 1 0) := by
      rw [← hs]; simp [isRunning, hr]
    simp [idle, hi]
  | true =>
    have hi : isRunning w = (true, (isRunning w).2) := by
      simp [isRunning, hr]
    rw [idle, hi]
    simp only [hg]
    simp

/-- The import always returns or throws: its loop never uses up the
iterations it is given. -/
theorem import_nodes_returns (mp : Msgpack) (w : World) (file_name : String) :
    (import_nodes mp w file_name).isSome = true := by
  unfold import_nodes
  split
  · rfl
  · exact import_loop_enough mp _ _ _ _ (by omega)

/-- Octets that end in the middle of an object are not a frame: the unpacker
reports that no complete object is left and the import returns the count of
the frames before them. -/
theorem import_nodes_truncated_tail :
    (import_nodes sample_msgpack sample_truncated_world "nodes.bin").map
        (fun r => (r.1, r.2.trace))
      = some (Except.ok 1, [Event.bootstrap_nodes [NodeExport.mk 1 2 3]]) :=
  rfl

/-! ## The claims -/

/-- C2: when the cache file exists and its content decodes to the frames
`f1..fk`, `import_nodes` calls `bootstrap` once per frame, in file order, with
that frame's descriptors, makes no other call, and returns the sum of the
frames' lengths (0 when there is no frame). -/
theorem import_nodes_feeds_every_frame (mp : Msgpack) (w : World) (file_name : String)
    (buf : Bytes) (frames : List (List NodeExport))
    (hfile : w.fs file_name = some buf) (hdec : Decodes mp buf frames) :
    import_nodes mp w file_name
      = some (Except.ok (frames.map List.length).sum, after w (frames.map Event.bootstrap_nodes)) := by
  simp only [import_nodes, hfile]
  rw [import_loop_decodes mp _ _ _ _ _ hdec (by omega)]
  simp

theorem import_nodes_feeds_every_frame_witness :
    sample_cache_world.fs "nodes.bin" = some [145, 1, 2, 3, 146, 4, 5, 6, 7, 8, 9] ∧
    Decodes sample_msgpack [145, 1, 2, 3, 146, 4, 5, 6, 7, 8, 9]
      [[NodeExport.mk 1 2 3], [NodeExport.mk 4 5 6, NodeExport.mk 7 8 9]] ∧
    import_nodes sample_msgpack sample_cache_world "nodes.bin"
      = some (Except.ok 3,
              after sample_cache_world
                [Event.bootstrap_nodes [NodeExport.mk 1 2 3],
                 Event.bootstrap_nodes [NodeExport.mk 4 5 6, NodeExport.mk 7 8 9]]) :=
  have hdec : Decodes sample_msgpack [145, 1, 2, 3, 146, 4, 5, 6, 7, 8, 9]
      [[NodeExport.mk 1 2 3], [NodeExport.mk 4 5 6, NodeExport.mk 7 8 9]] :=
    Decodes.frame
      (show sample_msgpack.next [145, 1, 2, 3, 146, 4, 5, 6, 7, 8, 9]
        = Parse.object (SampleObj.array [1, 2, 3]) [146, 4, 5, 6, 7, 8, 9] from rfl) rfl
      (Decodes.frame
        (show sample_msgpack.next [146, 4, 5, 6, 7, 8, 9]
          = Parse.object (SampleObj.array [4, 5, 6, 7, 8, 9]) [] from rfl) rfl
        (Decodes.done rfl))
  ⟨by decide, hdec,
    import_nodes_feeds_every_frame sample_msgpack sample_cache_world "nodes.bin" _ _ (by decide) hdec⟩

/-- C3: when no file exists at the path, `import_nodes` returns 0 and changes
nothing: no `bootstrap` call is made, and runtime and file system are as
before. -/
theorem import_nodes_missing_file (mp : Msgpack) (w : World) (file_name : String)
    (hfile : w.fs file_name = none) :
    import_nodes mp w file_name = some (Except.ok 0, w) := by
  simp [import_nodes, hfile]

theorem import_nodes_missing_file_witness :
    sample_cold_world.fs "nodes.bin" = none ∧
    import_nodes sample_msgpack sample_cold_world "nodes.bin" = some (Except.ok 0, sample_cold_world) :=
  ⟨by decide, import_nodes_missing_file sample_msgpack sample_cold_world "nodes.bin" (by decide)⟩

/-- C4: when `exportNodes()` answers the empty list, `export_nodes` returns 0
and writes nothing: the world, and so every file, is as before. -/
theorem export_nodes_empty (mp : Msgpack) (w : World) (file_name : String)
    (hnodes : w.nodes = []) :
    export_nodes mp w file_name = (0, w) := by
  simp [export_nodes, hnodes]

theorem export_nodes_empty_witness :
    sample_cache_world.nodes = [] ∧
    export_nodes sample_msgpack sample_cache_world "nodes.bin" = (0, sample_cache_world) ∧
    (export_nodes sample_msgpack sample_cache_world "nodes.bin").2.fs "nodes.bin"
      = some [145, 1, 2, 3, 146, 4, 5, 6, 7, 8, 9] :=
  have h := export_nodes_empty sample_msgpack sample_cache_world "nodes.bin" rfl
  ⟨rfl, h, by rw [h]; decide⟩

/-- C5: `load_identity` returns null exactly when one of `<path>.pem`,
`<path>.crt` is missing or empty, and then no decoder is called (the trace is
as before).  When both files exist and are non-empty it decodes the key from
the `.pem` bytes with the password and the certificate from the `.crt` bytes,
and returns the pair or ends with the decoder's exception, never null. -/
theorem load_identity_null_iff (cr : Crypto) (w : World) (identity_path password : String) :
    ((missing_or_empty w.fs (identity_path ++ ".pem") ∨
        missing_or_empty w.fs (identity_path ++ ".crt")) →
      load_identity cr w identity_path password = (Except.ok none, w)) ∧
    (∀ key_bytes crt_bytes, w.fs (identity_path ++ ".pem") = some key_bytes →
      w.fs (identity_path ++ ".crt") = some crt_bytes → key_bytes ≠ [] → crt_bytes ≠ [] →
      load_identity cr w identity_path password
        = decode_identity cr w key_bytes crt_bytes password ∧
      (decode_identity cr w key_bytes crt_bytes password).1 ≠ Except.ok none) ∧
    ((load_identity cr w identity_path password).1 = Except.ok none ↔
      (missing_or_empty w.fs (identity_path ++ ".pem") ∨
        missing_or_empty w.fs (identity_path ++ ".crt"))) := by
  have hnull : (missing_or_empty w.fs (identity_path ++ ".pem") ∨
        missing_or_empty w.fs (identity_path ++ ".crt")) →
      load_identity cr w identity_path password = (Except.ok none, w) := by
    rintro ((h | h) | (h | h)) <;> simp [load_identity, h, read_file]
  have hdecode : ∀ key_bytes crt_bytes, w.fs (identity_path ++ ".pem") = some key_bytes →
      w.fs (identity_path ++ ".crt") = some crt_bytes → key_bytes ≠ [] → crt_bytes ≠ [] →
      load_identity cr w identity_path password
        = decode_identity cr w key_bytes crt_bytes password ∧
      (decode_identity cr w key_bytes crt_bytes password).1 ≠ Except.ok none := by
    intro key_bytes crt_bytes hk hc hkne hcne
    constructor
    · simp only [load_identity, hk, hc, read_file, decode_identity, List.isEmpty_iff]
      simp only [Option.isNone_some, hkne, hcne, Bool.false_eq_true, if_false]
      cases cr.private_key key_bytes password with
      | error e => rfl
      | ok key =>
        cases cr.certificate crt_bytes with
        | error e => simp [log, after]
        | ok crt => simp [log, after]
    · simp only [decode_identity]
      cases cr.private_key key_bytes password with
      | error e => simp
      | ok key =>
        cases cr.certificate crt_bytes with
        | error e => simp
        | ok crt => simp
  refine ⟨hnull, hdecode, ?_, fun h => by rw [hnull h]⟩
  intro h
  by_contra hcon
  simp only [missing_or_empty, not_or] at hcon
  obtain ⟨⟨hk1, hk2⟩, hc1, hc2⟩ := hcon
  cases hk : w.fs (identity_path ++ ".pem") with
  | none => exact hk1 hk
  | some key_bytes =>
    cases hc : w.fs (identity_path ++ ".crt") with
    | none => exact hc1 hc
    | some crt_bytes =>
      have hkne : key_bytes ≠ [] := by rintro rfl; exact hk2 hk
      have hcne : crt_bytes ≠ [] := by rintro rfl; exact hc2 hc
      obtain ⟨heq, hne⟩ := hdecode key_bytes crt_bytes hk hc hkne hcne
      rw [heq] at h
      exact hne h

theorem load_identity_null_iff_witness :
    load_identity sample_crypto sample_cold_world "key" "pw" = (Except.ok none, sample_cold_world) ∧
    load_identity sample_crypto sample_bad_cache_world "key" "pw"
      = decode_identity sample_crypto sample_bad_cache_world [1, 9] [2, 9] "pw" ∧
    decode_identity sample_crypto sample_bad_cache_world [1, 9] [2, 9] "pw"
      = (Except.ok (some (PrivateKey.mk 2, Certificate.mk 2)), sample_loaded_world) :=
  ⟨(load_identity_null_iff sample_crypto sample_cold_world "key" "pw").1 (Or.inl (Or.inl rfl)),
    ((load_identity_null_iff sample_crypto sample_bad_cache_world "key" "pw").2.1 [1, 9] [2, 9]
      rfl rfl (by decide) (by decide)).1,
    rfl⟩

/-- C6: in the Bootstrapping step, once the cache import has returned its
count, `bootstrap(host, port)` is called, with the configured host and port,
if and only if the count is zero; when the count is not zero the only thing
the step does is report the count. -/
theorem bootstrapping_fallback (mp : Msgpack) (opts : Options) (w w1 : World) (import_count : Nat)
    (himp : import_nodes mp w opts.nodes = some (Except.ok import_count, w1)) :
    ∃ added, bootstrapping mp opts w = some (Except.ok import_count, after w1 added) ∧
      (Event.bootstrap_host opts.bootstrap_host opts.bootstrap_port ∈ added ↔ import_count = 0) ∧
      (∀ host port, Event.bootstrap_host host port ∈ added →
        host = opts.bootstrap_host ∧ port = opts.bootstrap_port) ∧
      (import_count = 0 →
        added = [Event.print (Msg.bootstrapping opts.bootstrap_host opts.bootstrap_port),
                 Event.bootstrap_host opts.bootstrap_host opts.bootstrap_port]) ∧
      (import_count ≠ 0 → added = [Event.print (Msg.imported import_count)]) := by
  by_cases h0 : import_count = 0
  · refine ⟨[Event.print (Msg.bootstrapping opts.bootstrap_host opts.bootstrap_port),
      Event.bootstrap_host opts.bootstrap_host opts.bootstrap_port], ?_, ?_, ?_, ?_, ?_⟩
    · simp [bootstrapping, himp, h0, log, after]
    · simp [h0]
    · intro host port hmem
      simpa using hmem
    · intro _; rfl
    · intro h; exact absurd h0 h
  · refine ⟨[Event.print (Msg.imported import_count)], ?_, ?_, ?_, ?_, ?_⟩
    · simp [bootstrapping, himp, h0, log, after]
    · simp [h0]
    · intro host port hmem
      simp at hmem
    · intro h; exact absurd h h0
    · intro _; rfl

theorem bootstrapping_fallback_witness :
    import_nodes sample_msgpack sample_cold_world sample_options.nodes
      = some (Except.ok 0, sample_cold_world) ∧
    ∃ added, bootstrapping sample_msgpack sample_options sample_cold_world
        = some (Except.ok 0, after sample_cold_world added) ∧
      (Event.bootstrap_host sample_options.bootstrap_host sample_options.bootstrap_port ∈ added
        ↔ 0 = 0) ∧
      (∀ host port, Event.bootstrap_host host port ∈ added →
        host = sample_options.bootstrap_host ∧ port = sample_options.bootstrap_port) ∧
      (0 = 0 →
        added = [Event.print (Msg.bootstrapping sample_options.bootstrap_host sample_options.bootstrap_port),
                 Event.bootstrap_host sample_options.bootstrap_host sample_options.bootstrap_port]) ∧
      (0 ≠ 0 → added = [Event.print (Msg.imported 0)]) :=
  ⟨rfl, bootstrapping_fallback sample_msgpack sample_options sample_cold_world sample_cold_world 0 rfl⟩

/-- C7, as stated, fails on a frame cut short by the end of the file: the
unpacker reports that no complete object is left, `import_nodes` returns the
count 0 without any exception, and `main` goes on to the host/port bootstrap,
the idle loop, the shutdown and the join, and returns 0. -/
theorem cut_frame_is_not_fatal :
    (import_nodes sample_msgpack sample_cut_cache_world "nodes.bin").map
        (fun r => (r.1, r.2.trace)) = some (Except.ok 0, []) ∧
    (main sample_crypto sample_msgpack 1 sample_options sample_cut_cache_world).map
        (fun r => (r.1, r.2.trace))
      = some (Exit.returned 0,
          [Event.private_key [1, 9] "pw", Event.certificate [2, 9],
           Event.print (Msg.fingerprint "sample-id"), Event.run 0,
           Event.print (Msg.running 4000),
           Event.print (Msg.bootstrapping "bootstrap.jami.net" "4222"),
           Event.bootstrap_host "bootstrap.jami.net" "4222", Event.getchar 113,
           Event.print Msg.shutting_down, Event.shutdown, Event.join]) :=
  ⟨rfl, by decide⟩

/-- C7, amended: when the cache file exists and one of its complete frames
(an object the unpacker yields, or malformed octets where an object should
start) does not decode to a
sequence of node descriptors, `import_nodes` returns no count but ends with a
decode exception (after having passed the valid frames before it to
`bootstrap`), and `main`, which has no handler around the call, ends with that
exception: the only calls made after the runtime was started are those
`bootstrap` calls, so no host/port bootstrap, export, shutdown or join. -/
theorem malformed_cache_is_fatal (cr : Crypto) (mp : Msgpack) (fuel : Nat) (opts : Options)
    (w w1 : World) (identity : Identity) (buf : Bytes) (good : List (List NodeExport)) (e : Exn)
    (hhelp : opts.help = false)
    (hid : resolve_identity cr w opts.identity opts.password = (Except.ok identity, w1))
    (hfile : w1.fs opts.nodes = some buf) (hbad : BadFrame mp buf good e) :
    import_nodes mp (start_runtime cr opts identity w1) opts.nodes
        = some (Except.error e,
                after (start_runtime cr opts identity w1) (good.map Event.bootstrap_nodes)) ∧
      (e = Exn.parse_error ∨ e = Exn.type_error) ∧
      main cr mp fuel opts w
        = some (Exit.terminate e,
                after (start_runtime cr opts identity w1) (good.map Event.bootstrap_nodes)) ∧
      (after (start_runtime cr opts identity w1) (good.map Event.bootstrap_nodes)).fs = w1.fs ∧
      ∀ ev ∈ good.map Event.bootstrap_nodes,
        ev ≠ Event.shutdown ∧ ev ≠ Event.join ∧ ∀ host port, ev ≠ Event.bootstrap_host host port := by
  have hfile2 : (start_runtime cr opts identity w1).fs opts.nodes = some buf := by
    rw [start_runtime_eq]; exact hfile
  refine ⟨import_nodes_bad mp _ _ _ _ _ hfile2 hbad, badFrame_exn mp _ _ _ hbad,
    main_bad_cache cr mp fuel opts w w1 identity buf good e hhelp hid hfile hbad, ?_, ?_⟩
  · rw [start_runtime_eq]; rfl
  · intro ev hev
    obtain ⟨nodes, _, rfl⟩ := List.mem_map.1 hev
    simp

theorem malformed_cache_is_fatal_witness :
    sample_options.help = false ∧
    resolve_identity sample_crypto sample_bad_cache_world sample_options.identity sample_options.password
      = (Except.ok (PrivateKey.mk 2, Certificate.mk 2), sample_loaded_world) ∧
    sample_loaded_world.fs sample_options.nodes = some [145, 1, 2, 3, 7] ∧
    BadFrame sample_msgpack [145, 1, 2, 3, 7] [[NodeExport.mk 1 2 3]] Exn.type_error ∧
    main sample_crypto sample_msgpack 1 sample_options sample_bad_cache_world
      = some (Exit.terminate Exn.type_error,
              after (start_runtime sample_crypto sample_options (PrivateKey.mk 2, Certificate.mk 2)
                sample_loaded_world) [Event.bootstrap_nodes [NodeExport.mk 1 2 3]]) :=
  have hbad : BadFrame sample_msgpack [145, 1, 2, 3, 7] [[NodeExport.mk 1 2 3]] Exn.type_error :=
    BadFrame.later
      (show sample_msgpack.next [145, 1, 2, 3, 7] = Parse.object (SampleObj.array [1, 2, 3]) [7]
        from rfl) rfl
      (BadFrame.mistyped
        (show sample_msgpack.next [7] = Parse.object (SampleObj.int 7) [] from rfl) rfl)
  ⟨rfl, rfl, rfl, hbad,
    (malformed_cache_is_fatal sample_crypto sample_msgpack 1 sample_options sample_bad_cache_world
      sample_loaded_world (PrivateKey.mk 2, Certificate.mk 2) [145, 1, 2, 3, 7]
      [[NodeExport.mk 1 2 3]] Exn.type_error rfl rfl rfl hbad).2.2.1⟩

/-- C8, as stated, fails: a run on a cache whose second object is not a node
list ends in the decode exception after `dht.run` has been called and after
the first, valid, batch has been passed to `bootstrap`. -/
theorem decode_abort_after_start :
    (main sample_crypto sample_msgpack 1 sample_options sample_bad_cache_world).map
        (fun r => (r.1, r.2.trace))
      = some (Exit.terminate Exn.type_error,
          [Event.private_key [1, 9] "pw", Event.certificate [2, 9],
           Event.print (Msg.fingerprint "sample-id"), Event.run 0,
           Event.print (Msg.running 4000), Event.bootstrap_nodes [NodeExport.mk 1 2 3]]) := by
  decide

/-- C8, amended: every run of `main` that ends in a cache decode exception
has resolved the identity, has started the runtime (`dht.run` precedes the
import) and has passed to `bootstrap` each valid batch that precedes the frame
that does not decode; these are all the calls it made after identity
resolution, so it made no host/port bootstrap call. -/
theorem decode_abort_follows_start (cr : Crypto) (mp : Msgpack) (fuel : Nat) (opts : Options)
    (w w' : World) (e : Exn)
    (h : main cr mp fuel opts w = some (Exit.terminate e, w')) :
    ∃ identity w1 buf good,
      resolve_identity cr w opts.identity opts.password = (Except.ok identity, w1) ∧
      w1.fs opts.nodes = some buf ∧ BadFrame mp buf good e ∧
      w' = after w1 ([Event.print (Msg.fingerprint (cr.fingerprint identity.1)),
                      Event.run opts.port, Event.print (Msg.running w1.bound_port)]
                     ++ good.map Event.bootstrap_nodes) ∧
      Event.run opts.port ∈ w'.trace ∧
      (∀ nodes, nodes ∈ good → Event.bootstrap_nodes nodes ∈ w'.trace) ∧
      (∀ host port, Event.bootstrap_host host port ∈ w'.trace →
        Event.bootstrap_host host port ∈ w.trace) := by
  unfold main at h
  split at h
  · simp at h
  · split at h
    · simp at h
    · rename_i identity w1 hres
      have himp := bootstrapping_error mp opts _ _ _ (run_node_terminate mp fuel opts _ _ _ h)
      obtain ⟨buf, good, hfile, hbad, hw⟩ := import_nodes_error mp _ _ _ _ himp
      rw [start_runtime_eq] at hfile hw
      have hw' : w' = after w1 ([Event.print (Msg.fingerprint (cr.fingerprint identity.1)),
                      Event.run opts.port, Event.print (Msg.running w1.bound_port)]
                     ++ good.map Event.bootstrap_nodes) := by
        rw [hw, after_after]
      obtain ⟨added, htr, hadded⟩ := resolve_identity_trace cr w opts.identity opts.password
      rw [hres] at htr
      have htr1 : w1.trace = w.trace ++ added := htr
      refine ⟨identity, w1, buf, good, hres, hfile, hbad, hw', ?_, ?_, ?_⟩
      · rw [hw']; simp [after]
      · intro nodes hn
        rw [hw']
        simp only [after, List.mem_append, List.mem_map]
        exact Or.inr (Or.inr ⟨nodes, hn, rfl⟩)
      · intro host port hmem
        rw [hw'] at hmem
        simp only [after, htr1, List.mem_append, List.mem_map, List.mem_cons, List.mem_singleton,
          List.not_mem_nil, or_false] at hmem
        rcases hmem with (hmem | hmem) | hmem
        · exact hmem
        · have := hadded _ hmem
          simp [Event.is_runtime_call] at this
        · rcases hmem with (hmem | hmem | hmem) | ⟨nodes, _, hmem⟩ <;> cases hmem

theorem decode_abort_follows_start_witness :
    main sample_crypto sample_msgpack 1 sample_options sample_bad_cache_world
      = some (Exit.terminate Exn.type_error,
              after (start_runtime sample_crypto sample_options (PrivateKey.mk 2, Certificate.mk 2)
                sample_loaded_world) [Event.bootstrap_nodes [NodeExport.mk 1 2 3]]) ∧
    ∃ identity w1 buf good,
      resolve_identity sample_crypto sample_bad_cache_world sample_options.identity
          sample_options.password = (Except.ok identity, w1) ∧
      w1.fs sample_options.nodes = some buf ∧ BadFrame sample_msgpack buf good Exn.type_error ∧
      after (start_runtime sample_crypto sample_options (PrivateKey.mk 2, Certificate.mk 2)
          sample_loaded_world) [Event.bootstrap_nodes [NodeExport.mk 1 2 3]]
        = after w1 ([Event.print (Msg.fingerprint (sample_crypto.fingerprint identity.1)),
                      Event.run sample_options.port, Event.print (Msg.running w1.bound_port)]
                     ++ good.map Event.bootstrap_nodes) ∧
      Event.run sample_options.port ∈
        (after (start_runtime sample_crypto sample_options (PrivateKey.mk 2, Certificate.mk 2)
          sample_loaded_world) [Event.bootstrap_nodes [NodeExport.mk 1 2 3]]).trace ∧
      (∀ nodes, nodes ∈ good → Event.bootstrap_nodes nodes ∈
        (after (start_runtime sample_crypto sample_options (PrivateKey.mk 2, Certificate.mk 2)
          sample_loaded_world) [Event.bootstrap_nodes [NodeExport.mk 1 2 3]]).trace) ∧
      (∀ host port, Event.bootstrap_host host port ∈
        (after (start_runtime sample_crypto sample_options (PrivateKey.mk 2, Certificate.mk 2)
          sample_loaded_world) [Event.bootstrap_nodes [NodeExport.mk 1 2 3]]).trace →
        Event.bootstrap_host host port ∈ sample_bad_cache_world.trace) :=
  have hrun : main sample_crypto sample_msgpack 1 sample_options sample_bad_cache_world
      = some (Exit.terminate Exn.type_error,
              after (start_runtime sample_crypto sample_options (PrivateKey.mk 2, Certificate.mk 2)
                sample_loaded_world) [Event.bootstrap_nodes [NodeExport.mk 1 2 3]]) :=
    main_bad_cache sample_crypto sample_msgpack 1 sample_options sample_bad_cache_world
      sample_loaded_world (PrivateKey.mk 2, Certificate.mk 2) [145, 1, 2, 3, 7]
      [[NodeExport.mk 1 2 3]] Exn.type_error rfl rfl rfl
      (BadFrame.later
        (show sample_msgpack.next [145, 1, 2, 3, 7] = Parse.object (SampleObj.array [1, 2, 3]) [7]
          from rfl) rfl
        (BadFrame.mistyped
          (show sample_msgpack.next [7] = Parse.object (SampleObj.int 7) [] from rfl) rfl))
  ⟨hrun, decode_abort_follows_start sample_crypto sample_msgpack 1 sample_options
    sample_bad_cache_world _ Exn.type_error hrun⟩

/-- C9: both immediate-exit paths end the process with exit code 0 and make no
call into the DHT runtime.  (i) With the help flag, `main` prints the usage and
does nothing else.  (ii) Without it, when identity resolution (the load, or
the generation and saving that follow a null result) throws, `main` writes the
two diagnostic lines to the error stream and exits; every call made up to
there is a call of the identity library. -/
theorem immediate_exits (cr : Crypto) (mp : Msgpack) (fuel : Nat) (opts : Options) (w : World) :
    (opts.help = true →
      main cr mp fuel opts w = some (Exit.exit 0, after w [Event.print Msg.usage])) ∧
    (∀ e w1, opts.help = false →
      resolve_identity cr w opts.identity opts.password = (Except.error e, w1) →
      main cr mp fuel opts w
          = some (Exit.exit 0,
                  after w1 [Event.eprint (Msg.load_failed e), Event.eprint Msg.aborting]) ∧
        ∃ added, w1.trace = w.trace ++ added ∧ ∀ ev ∈ added, ev.is_runtime_call = false) := by
  constructor
  · intro hhelp
    simp [main, hhelp, log, after]
  · intro e w1 hhelp hres
    constructor
    · simp [main, hhelp, hres, log, after]
    · obtain ⟨added, htr, hadded⟩ := resolve_identity_trace cr w opts.identity opts.password
      rw [hres] at htr
      exact ⟨added, htr, hadded⟩

theorem immediate_exits_witness :
    main sample_crypto sample_msgpack 1 sample_help_options sample_cold_world
      = some (Exit.exit 0, after sample_cold_world [Event.print Msg.usage]) ∧
    resolve_identity sample_crypto sample_bad_key_world sample_options.identity sample_options.password
      = (Except.error (Exn.crypto "bad key"), sample_failed_world) ∧
    main sample_crypto sample_msgpack 1 sample_options sample_bad_key_world
      = some (Exit.exit 0,
              after sample_failed_world
                [Event.eprint (Msg.load_failed (Exn.crypto "bad key")), Event.eprint Msg.aborting]) :=
  ⟨(immediate_exits sample_crypto sample_msgpack 1 sample_help_options sample_cold_world).1 rfl,
    rfl,
    ((immediate_exits sample_crypto sample_msgpack 1 sample_options sample_bad_key_world).2
      (Exn.crypto "bad key") sample_failed_world rfl rfl).1⟩

/-- C10: the idle loop checks `isRunning` before each read and stops exactly
at the first iteration `k` at which the runtime answers "not running" (then
`k` characters have been read, none at iteration `k`) or the character read is
`q` (then `k + 1` characters have been read); at every earlier iteration the
character, end of input included, is read and dropped.  With a budget of `k`
iterations or fewer the loop has not stopped.  When the runtime is not running
on entry, nothing is read. -/
theorem idle_exits_at_first_stop (w : World) (k : Nat)
    (hprev : ∀ j, j < k → w.running j = true ∧ input_at w.stdin j ≠ 113) :
    (∀ fuel, fuel ≤ k → idle fuel w = none) ∧
    (w.running k = false → ∀ fuel, k < fuel → idle fuel w = some (idle_exit w (k + 1) k)) ∧
    (w.running k = true → input_at w.stdin k = 113 →
      ∀ fuel, k < fuel → idle fuel w = some (idle_exit w (k + 1) (k + 1))) ∧
    (w.running 0 = false → ∀ fuel, 0 < fuel →
      ∃ w', idle fuel w = some w' ∧ w'.stdin = w.stdin ∧ w'.trace = w.trace) := by
  have hentry : w.running 0 = false → ∀ fuel, 0 < fuel →
      ∃ w', idle fuel w = some w' ∧ w'.stdin = w.stdin ∧ w'.trace = w.trace := by
    intro hr fuel hf
    obtain ⟨f, rfl⟩ : ∃ f, fuel = f + 1 := ⟨fuel - 1, by omega⟩
    exact ⟨idle_exit w 1 0, by simp [idle_succ, hr], by simp [idle_exit], by simp [idle_exit]⟩
  refine ⟨?_, ?_, ?_, hentry⟩
  all_goals clear hentry
  all_goals induction k generalizing w with
    | zero => ?_
    | succ k ih => ?_
  · intro fuel hf
    obtain rfl : fuel = 0 := by omega
    rfl
  · intro fuel hf
    cases fuel with
    | zero => rfl
    | succ f =>
      have h0 := hprev 0 (by omega)
      rw [idle_succ]
      simp only [h0.1, h0.2, if_true, if_false]
      apply ih
      · intro j hj
        have := hprev (j + 1) (by omega)
        exact ⟨this.1, by rw [input_at_succ]; exact this.2⟩
      · omega
  · intro hr fuel hf
    obtain ⟨f, rfl⟩ : ∃ f, fuel = f + 1 := ⟨fuel - 1, by omega⟩
    simp [idle_succ, hr]
  · intro hr fuel hf
    obtain ⟨f, rfl⟩ : ∃ f, fuel = f + 1 := ⟨fuel - 1, by omega⟩
    have h0 := hprev 0 (by omega)
    rw [idle_succ]
    simp only [h0.1, h0.2, if_true, if_false]
    rw [ih (idle_exit w 1 1) _ hr f (by omega), idle_exit_step]
    intro j hj
    have := hprev (j + 1) (by omega)
    exact ⟨this.1, by rw [input_at_succ]; exact this.2⟩
  · intro hr hq fuel hf
    obtain ⟨f, rfl⟩ : ∃ f, fuel = f + 1 := ⟨fuel - 1, by omega⟩
    simp [idle_succ, hr, hq]
  · intro hr hq fuel hf
    obtain ⟨f, rfl⟩ : ∃ f, fuel = f + 1 := ⟨fuel - 1, by omega⟩
    have h0 := hprev 0 (by omega)
    rw [idle_succ]
    simp only [h0.1, h0.2, if_true, if_false]
    rw [ih (idle_exit w 1 1) _ hr (by rw [input_at_succ]; exact hq) f (by omega), idle_exit_step]
    intro j hj
    have := hprev (j + 1) (by omega)
    exact ⟨this.1, by rw [input_at_succ]; exact this.2⟩

theorem idle_exits_at_first_stop_witness :
    (∀ j, j < 1 → sample_cold_world.running j = true ∧ input_at sample_cold_world.stdin j ≠ 113) ∧
    sample_cold_world.running 1 = true ∧ input_at sample_cold_world.stdin 1 = 113 ∧
    idle 1 sample_cold_world = none ∧
    idle 2 sample_cold_world = some (idle_exit sample_cold_world 2 2) ∧
    (idle_exit sample_cold_world 2 2).stdin = [120] ∧
    (idle_exit sample_cold_world 2 2).trace = [Event.getchar 120, Event.getchar 113] :=
  have hprev : ∀ j, j < 1 →
      sample_cold_world.running j = true ∧ input_at sample_cold_world.stdin j ≠ 113 := by
    intro j hj
    obtain rfl : j = 0 := by omega
    decide
  have h := idle_exits_at_first_stop sample_cold_world 1 hprev
  ⟨hprev, by decide, by decide, h.1 1 (by decide), h.2.2.1 (by decide) (by decide) 2 (by decide),
    by decide, by decide⟩

end OpenDhtTest
